import Mathlib

/-!
Formal model of the YouTube-History-Analysis pipeline (src/app.py):
the data-loading loop (clean_data), the timestamp column parse, the
time-window counts, and the batch-classification audit loop.

Python strings are modelled as Lean `String`; Python `str.replace`,
`str.strip`, substring tests and `json.loads` are modelled by executable
functions below, faithful to CPython semantics on the constructs the
program exercises (string/list/object/number/boolean/null JSON values;
`\uXXXX` escapes are not modelled, no input here uses them).
-/

/-- A Python value as produced by `json.loads`: string, number (kept as
its lexeme), boolean, null, list, or object (ordered key/value pairs,
as CPython dicts preserve insertion order). -/
inductive PyVal where
  | str (s : String)
  | num (lit : String)
  | bool (b : Bool)
  | null
  | list (elems : List PyVal)
  | obj (entries : List (String × PyVal))

/-- Python `sub in s` on lists of characters: `p` occurs contiguously in `l`. -/
def listContainsSub (p : List Char) : List Char → Bool
  | [] => p.isEmpty
  | c :: cs => p.isPrefixOf (c :: cs) || listContainsSub p cs

/-- Python `sub in s` for strings. -/
def strContains (s sub : String) : Bool :=
  listContainsSub sub.data s.data

/-- Python `s.startswith(pre)` for strings. -/
def strStarts (s pre : String) : Bool :=
  pre.data.isPrefixOf s.data

/-- One pass of Python `str.replace`: replace every left-to-right
non-overlapping occurrence of `p` by `r`.  `fuel` bounds the recursion;
callers pass the input length, which suffices because each step consumes
at least one character (the pattern is non-empty at every call site). -/
def listReplace (p r : List Char) : Nat → List Char → List Char
  | _, [] => []
  | 0, l => l
  | fuel + 1, c :: cs =>
    if p.isPrefixOf (c :: cs) then
      r ++ listReplace p r fuel ((c :: cs).drop p.length)
    else
      c :: listReplace p r fuel cs

/-- Python `s.replace(pat, rep)` (the program only calls it with a
non-empty pattern; an empty pattern is returned unchanged here). -/
def pyReplace (s pat rep : String) : String :=
  if pat.data.isEmpty then s
  else String.mk (listReplace pat.data rep.data s.data.length s.data)

/-- The whitespace characters removed by Python `str.strip()`. -/
def isPyWs (c : Char) : Bool :=
  c = ' ' || c = '\t' || c = '\n' || c = '\r' ||
  c = Char.ofNat 11 || c = Char.ofNat 12

/-- Python `s.strip()`: drop leading and trailing whitespace. -/
def pyStrip (s : String) : String :=
  String.mk (((s.data.dropWhile isPyWs).reverse.dropWhile isPyWs).reverse)

/-- JSON whitespace accepted between tokens by `json.loads`. -/
def isJsonWs (c : Char) : Bool :=
  c = ' ' || c = '\t' || c = '\n' || c = '\r'

def skipWs (l : List Char) : List Char := l.dropWhile isJsonWs

/-- Decode a single-character JSON string escape (`\uXXXX` is not
modelled; no input of this development uses it). -/
def escChar (c : Char) : Option Char :=
  if c = '"' then some '"'
  else if c = '\\' then some '\\'
  else if c = '/' then some '/'
  else if c = 'n' then some '\n'
  else if c = 't' then some '\t'
  else if c = 'r' then some '\r'
  else if c = 'b' then some (Char.ofNat 8)
  else if c = 'f' then some (Char.ofNat 12)
  else none

/-- Parse the body of a JSON string after its opening quote; returns the
decoded characters and the input remaining after the closing quote. -/
def parseStrBody : Nat → List Char → Option (List Char × List Char)
  | _, [] => none
  | 0, _ => none
  | fuel + 1, c :: cs =>
    if c = '"' then some ([], cs)
    else if c = '\\' then
      match cs with
      | [] => none
      | e :: cs2 =>
        match escChar e with
        | none => none
        | some ch =>
          match parseStrBody fuel cs2 with
          | none => none
          | some pr => some (ch :: pr.1, pr.2)
    else
      match parseStrBody fuel cs with
      | none => none
      | some pr => some (c :: pr.1, pr.2)

/-- Characters that may continue a JSON number lexeme. -/
def isNumChar (c : Char) : Bool :=
  c.isDigit || c = '-' || c = '+' || c = '.' || c = 'e' || c = 'E'

def lbrace : Char := Char.ofNat 123

def rbrace : Char := Char.ofNat 125

mutual

/-- Parse one JSON value (leading whitespace allowed), returning it and
the unconsumed input.  `fuel` bounds the recursion depth. -/
def parseValue : Nat → List Char → Option (PyVal × List Char)
  | 0, _ => none
  | fuel + 1, l =>
    match skipWs l with
    | [] => none
    | c :: cs =>
      if c = '"' then
        match parseStrBody (cs.length + 1) cs with
        | none => none
        | some pr => some (PyVal.str (String.mk pr.1), pr.2)
      else if c = '[' then parseListRest fuel (skipWs cs)
      else if c = lbrace then parseObjRest fuel (skipWs cs)
      else if c = 't' then
        if cs.take 3 = ['r', 'u', 'e'] then some (PyVal.bool true, cs.drop 3) else none
      else if c = 'f' then
        if cs.take 4 = ['a', 'l', 's', 'e'] then some (PyVal.bool false, cs.drop 4) else none
      else if c = 'n' then
        if cs.take 3 = ['u', 'l', 'l'] then some (PyVal.null, cs.drop 3) else none
      else if c.isDigit || c = '-' then
        some (PyVal.num (String.mk (c :: cs.takeWhile isNumChar)), cs.dropWhile isNumChar)
      else none

/-- Parse the remainder of a JSON array after `[` (whitespace skipped). -/
def parseListRest : Nat → List Char → Option (PyVal × List Char)
  | 0, _ => none
  | fuel + 1, l =>
    match l with
    | [] => none
    | c :: cs =>
      if c = ']' then some (PyVal.list [], cs)
      else
        match parseValue fuel (c :: cs) with
        | none => none
        | some pr => parseListLoop fuel [pr.1] pr.2

/-- Parse `, value`* `]` continuing a JSON array whose first elements
(reversed) are in `acc`. -/
def parseListLoop : Nat → List PyVal → List Char → Option (PyVal × List Char)
  | 0, _, _ => none
  | fuel + 1, acc, l =>
    match skipWs l with
    | [] => none
    | c :: cs =>
      if c = ']' then some (PyVal.list acc.reverse, cs)
      else if c = ',' then
        match parseValue fuel cs with
        | none => none
        | some pr => parseListLoop fuel (pr.1 :: acc) pr.2
      else none

/-- Parse the remainder of a JSON object after the opening brace
(whitespace skipped). -/
def parseObjRest : Nat → List Char → Option (PyVal × List Char)
  | 0, _ => none
  | fuel + 1, l =>
    match l with
    | [] => none
    | c :: cs =>
      if c = rbrace then some (PyVal.obj [], cs)
      else parseObjLoop fuel [] (c :: cs)

/-- Parse `"key" : value` pairs separated by `,` and closed by a brace,
accumulating pairs (reversed) in `acc`. -/
def parseObjLoop : Nat → List (String × PyVal) → List Char → Option (PyVal × List Char)
  | 0, _, _ => none
  | fuel + 1, acc, l =>
    match skipWs l with
    | [] => none
    | c :: cs =>
      if c = '"' then
        match parseStrBody (cs.length + 1) cs with
        | none => none
        | some kr =>
          match skipWs kr.2 with
          | [] => none
          | c2 :: cs2 =>
            if c2 = ':' then
              match parseValue fuel cs2 with
              | none => none
              | some vr =>
                match skipWs vr.2 with
                | [] => none
                | c3 :: cs3 =>
                  if c3 = rbrace then
                    some (PyVal.obj ((String.mk kr.1, vr.1) :: acc).reverse, cs3)
                  else if c3 = ',' then
                    parseObjLoop fuel ((String.mk kr.1, vr.1) :: acc) cs3
                  else none
            else none
      else none

end

/-- Python `json.loads`: parse one JSON value and require that only
whitespace follows (CPython raises "Extra data" otherwise, which the
program's bare `except` turns into the error fallback). -/
def jsonLoads (s : String) : Option PyVal :=
  match parseValue (4 * (s.data.length + 1)) s.data with
  | none => none
  | some pr => if skipWs pr.2 = [] then some pr.1 else none

/-! ## History Normalizer (the data-loading loop of src/app.py) -/

/-- One raw export record: each field is present (`some`) or absent
(`none`), as `'title' in entry` / `entry['time']` test and access keys
of the loosely-structured JSON dict. -/
structure Record where
  title : Option String
  time : Option String
  titleUrl : Option String

/-- How the load phase fails. `keyError` models the `KeyError` raised by
`entry['time']` on a record that passed the filter but has no `time`
key; `malformedTimestamp` models `pd.to_datetime` rejecting a time
string. Both are caught by the load phase's `except`, which shows an
error and calls `st.stop()`: the run aborts with no partial result. -/
inductive LoadError where
  | keyError
  | malformedTimestamp
deriving DecidableEq

/-- The data-loading loop: keep a record iff it has both a `title` and a
`titleUrl` key; the kept record contributes
`(title.replace("Watched ", ""), time)`, and accessing a missing `time`
key aborts the whole load with a `KeyError`. -/
def cleanData : List Record → Except LoadError (List (String × String))
  | [] => Except.ok []
  | r :: rs =>
    match r.title, r.titleUrl with
    | some t, some _ =>
      match r.time with
      | none => Except.error LoadError.keyError
      | some tm =>
        match cleanData rs with
        | Except.error e => Except.error e
        | Except.ok rest => Except.ok ((pyReplace t "Watched " "", tm) :: rest)
    | _, _ => cleanData rs

/-- `pd.to_datetime` applied to the whole `Time` column: every string
must parse, else the column conversion raises. The element parse is
abstract (`parse`), as the timestamp grammar lives in pandas. -/
def parseAll (parse : String → Option Int) : List String → Option (List Int)
  | [] => some []
  | s :: ss =>
    match parse s with
    | none => none
    | some t =>
      match parseAll parse ss with
      | none => none
      | some ts => some (t :: ts)

/-- The whole load phase: run the cleaning loop, then convert the time
column; any failure aborts with an error and no entries. -/
def load (parse : String → Option Int) (recs : List Record) :
    Except LoadError (List (String × Int)) :=
  match cleanData recs with
  | Except.error e => Except.error e
  | Except.ok cleaned =>
    match parseAll parse (cleaned.map Prod.snd) with
    | none => Except.error LoadError.malformedTimestamp
    | some ts => Except.ok ((cleaned.map Prod.fst).zip ts)

/-! ## Time-Window Aggregator (the date filtering of src/app.py) -/

/-- `df['Time'].max()`: the maximum timestamp of the column (0 for an
empty column, a case the program reaches only with an empty frame). -/
def maxTime : List Int → Int
  | [] => 0
  | t :: ts => ts.foldl max t

/-- `len(df[df['Time'] >= ref - window])`: the number of entries whose
timestamp is within `window` of `ref`. -/
def count_within (times : List Int) (ref window : Int) : Nat :=
  (times.filter (fun t => ref - window ≤ t)).length

/-! ## Batch Classifier (classify_batch and the audit loop of src/app.py) -/

/-- The `except` fallback of `classify_batch`: `["Error"] * len(titles)`. -/
def errorCats (titles : List String) : PyVal :=
  PyVal.list (titles.map (fun _ => PyVal.str "Error"))

/-- `response.text.replace("```json", "").replace("```", "").strip()`. -/
def stripFences (s : String) : String :=
  pyStrip (pyReplace (pyReplace s "```json" "") "```" "")

/-- `classify_batch`: `resp` is the external call's outcome (`none` = the
call raised). On success the fenced text is stripped and `json.loads`
applied; any failure inside the `try` yields the all-`Error` fallback. -/
def classify_batch (titles : List String) (resp : Option String) : PyVal :=
  match resp with
  | none => errorCats titles
  | some text =>
    match jsonLoads (stripFences text) with
    | none => errorCats titles
    | some v => v

/-- One character of a Python string, as iteration yields it. -/
def charStrs (s : String) : List PyVal :=
  s.data.map (fun c => PyVal.str (String.mk [c]))

/-- `zip(batch, categories)` of the audit loop: zipping truncates to the
shorter side; a string iterates its characters, a dict its keys; a
number, boolean or `None` is not iterable, so `zip` raises a
`TypeError` that nothing catches — the run aborts. -/
def zipPairs (batch : List String) (cats : PyVal) :
    Except Unit (List (String × PyVal)) :=
  match cats with
  | PyVal.list l => Except.ok (batch.zip l)
  | PyVal.str s => Except.ok (batch.zip (charStrs s))
  | PyVal.obj kvs => Except.ok (batch.zip (kvs.map (fun kv => PyVal.str kv.1)))
  | _ => Except.error ()

/-- `titles[i:i+batch_size]` chunking of the audit loop. `fuel` bounds
the recursion; passing the list's length suffices since every step
consumes at least the head element. -/
def chunksF : Nat → Nat → List α → List (List α)
  | _, _, [] => []
  | 0, _, l => [l]
  | fuel + 1, bs, x :: xs => (x :: xs.take (bs - 1)) :: chunksF fuel bs (xs.drop (bs - 1))

/-- Partition `l` into contiguous batches of `bs` (the program uses the
fixed `batch_size = 10`). -/
def chunks (bs : Nat) (l : List α) : List (List α) :=
  chunksF l.length bs l

/-- The audit loop over the remaining batches, `i` the index of the next
batch; `resp i` is the external outcome for batch `i`. Each batch's
categories are zipped with its titles and appended to the results. -/
def auditGo (resp : Nat → Option String) : Nat → List (List String) → Except Unit (List (String × PyVal))
  | _, [] => Except.ok []
  | i, b :: bs =>
    match zipPairs b (classify_batch b (resp i)) with
    | Except.error e => Except.error e
    | Except.ok prs =>
      match auditGo resp (i + 1) bs with
      | Except.error e => Except.error e
      | Except.ok rest => Except.ok (prs ++ rest)

/-- The whole classification run: chunk the titles and fold the audit
loop over the batches. -/
def classifyRun (titles : List String) (bs : Nat) (resp : Nat → Option String) :
    Except Unit (List (String × PyVal)) :=
  auditGo resp 0 (chunks bs titles)

/-! ## Shared lemmas -/

/-- Zipping a list with its own image pairs each element with its image. -/
theorem zip_map_self (f : α → β) : ∀ l : List α, l.zip (l.map f) = l.map (fun a => (a, f a))
  | [] => rfl
  | a :: l => by simp [zip_map_self f l]

/-- Filtering with a weaker predicate keeps at least as many elements. -/
theorem filter_length_mono (p q : α → Bool) (h : ∀ a, p a = true → q a = true) :
    ∀ l : List α, (l.filter p).length ≤ (l.filter q).length
  | [] => Nat.le_refl 0
  | a :: l => by
    by_cases hp : p a
    · simp [List.filter, hp, h a hp, Nat.succ_le_succ (filter_length_mono p q h l)]
    · by_cases hq : q a
      · simp only [List.filter, Bool.not_eq_true] at hp
        simp only [List.filter, hp, hq, List.length_cons]
        exact Nat.le_trans (filter_length_mono p q h l) (Nat.le_succ _)
      · simp only [List.filter, Bool.not_eq_true] at hp hq
        simp only [List.filter, hp, hq]
        exact filter_length_mono p q h l

/-- The batches produced by the chunking loop concatenate back to the input. -/
theorem chunksF_flatten (bs : Nat) : ∀ (fuel : Nat) (l : List α), (chunksF fuel bs l).flatten = l
  | 0, [] => rfl
  | 0, _ :: _ => by simp [chunksF]
  | fuel + 1, [] => rfl
  | fuel + 1, x :: xs => by
    simp [chunksF, chunksF_flatten bs fuel (xs.drop (bs - 1))]

/-- Chunking never loses or reorders titles. -/
theorem chunks_flatten (bs : Nat) (l : List α) : (chunks bs l).flatten = l :=
  chunksF_flatten bs l.length l

/-- An all-`none`-free sequence: if some element fails to parse, the whole
column conversion fails. -/
theorem parseAll_eq_none (parse : String → Option Int) :
    ∀ (l : List String), (∃ s ∈ l, parse s = none) → parseAll parse l = none
  | [], h => absurd h (by simp)
  | s :: ss, h => by
    rcases h with ⟨x, hx, hnone⟩
    rcases List.mem_cons.mp hx with rfl | hmem
    · simp [parseAll, hnone]
    · unfold parseAll
      rcases hp : parse s with _ | t
      · rfl
      · rw [parseAll_eq_none parse ss ⟨x, hmem, hnone⟩]

/-! ## Claim C2 — Scenario A -/

/-- The three records of Scenario A: the first and third have no
`titleUrl` field. -/
def scenarioA : List Record :=
  [⟨some "Watched Learning Rust Basics", some "2024-01-01T00:00:00Z", none⟩,
   ⟨some "Funny Prank Compilation", some "2024-01-02T00:00:00Z", some "x"⟩,
   ⟨some "https://ads.example", some "2024-01-03T00:00:00Z", none⟩]

/-- C2 (counterexample): on Scenario A the loading loop does not retain the
two claimed titles — records without a `titleUrl` field are dropped, so
"Learning Rust Basics" never appears. -/
theorem c2_counterexample :
    ¬ ∃ l, cleanData scenarioA = Except.ok l ∧
      l.map Prod.fst = ["Learning Rust Basics", "Funny Prank Compilation"] := by
  rintro ⟨l, hl, hm⟩
  have he : cleanData scenarioA =
      Except.ok [("Funny Prank Compilation", "2024-01-02T00:00:00Z")] := rfl
  rw [he] at hl
  cases hl
  simp at hm

/-- C2 (amended): on Scenario A the loading loop retains exactly one
entry, "Funny Prank Compilation" — the first record is dropped for
lacking a `titleUrl` key (not retained as the spec claims), and the
third is dropped for the same reason (not because its title is a URL). -/
theorem c2_scenarioA_amended :
    cleanData scenarioA =
      Except.ok [("Funny Prank Compilation", "2024-01-02T00:00:00Z")] ∧
    (cleanData scenarioA).map List.length = Except.ok 1 := ⟨rfl, rfl⟩

/-! ## Claim C3 — response parsing -/

/-- C3 (counterexample): the Scenario B response text, whose bracketed span
is preceded by prose, is NOT decoded by locating the first `[` and last
`]`: `json.loads` on the whole fence-stripped text fails, and both
titles of the batch get `Error` instead of `Aligned`/`Distraction`. -/
theorem c3_counterexample :
    classify_batch ["Learning Rust Basics", "Funny Prank Compilation"]
        (some "Here you go: [\"Aligned\", \"Distraction\"]") =
      PyVal.list [PyVal.str "Error", PyVal.str "Error"] ∧
    ¬ classify_batch ["Learning Rust Basics", "Funny Prank Compilation"]
        (some "Here you go: [\"Aligned\", \"Distraction\"]") =
      PyVal.list [PyVal.str "Aligned", PyVal.str "Distraction"] := by
  refine ⟨rfl, fun h => ?_⟩
  rw [show classify_batch ["Learning Rust Basics", "Funny Prank Compilation"]
        (some "Here you go: [\"Aligned\", \"Distraction\"]") =
      PyVal.list [PyVal.str "Error", PyVal.str "Error"] from rfl] at h
  simp only [PyVal.list.injEq, List.cons.injEq, PyVal.str.injEq] at h
  exact absurd h.1 (by decide)

/-- C3 (amended): the parser instead removes the code-fence markers and
surrounding whitespace and decodes the ENTIRE remaining text as JSON: a
bare or fenced JSON list yields the labels paired positionally with the
batch's titles, while the Scenario B text (prose around the list) fails
to decode, giving every title `Error`. -/
theorem c3_parse_amended :
    classify_batch ["Learning Rust Basics", "Funny Prank Compilation"]
        (some "[\"Aligned\", \"Distraction\"]") =
      PyVal.list [PyVal.str "Aligned", PyVal.str "Distraction"] ∧
    classify_batch ["Learning Rust Basics", "Funny Prank Compilation"]
        (some "```json\n[\"Aligned\", \"Distraction\"]\n```") =
      PyVal.list [PyVal.str "Aligned", PyVal.str "Distraction"] ∧
    classify_batch ["Learning Rust Basics", "Funny Prank Compilation"]
        (some "Here you go: [\"Aligned\", \"Distraction\"]") =
      PyVal.list [PyVal.str "Error", PyVal.str "Error"] := ⟨rfl, rfl, rfl⟩

/-! ## Claim C10 — "Watched " removed everywhere, not only as a prefix -/

/-- C10: a retained record's title is the raw title with every
left-to-right occurrence of "Watched " removed — in particular an
interior occurrence, as in "Review: Watched Films", is removed too. -/
theorem c10_replace_all_occurrences :
    (∀ (t tm u : String),
      cleanData [⟨some t, some tm, some u⟩] =
        Except.ok [(pyReplace t "Watched " "", tm)]) ∧
    cleanData [⟨some "Review: Watched Films", some "2024-01-01T00:00:00Z", some "u"⟩] =
      Except.ok [("Review: Films", "2024-01-01T00:00:00Z")] :=
  ⟨fun _ _ _ => rfl, rfl⟩

/-! ## Claim C4 — retained-title invariant -/

/-- C4 (counterexample): a record whose title contains "https://" is
retained when it has a `titleUrl` key, and a crafted title yields an
output that still starts with "Watched " (removal is a single
left-to-right pass, not iterated). -/
theorem c4_counterexample :
    cleanData [⟨some "https://ads.example", some "2024-01-03T00:00:00Z", some "u"⟩] =
      Except.ok [("https://ads.example", "2024-01-03T00:00:00Z")] ∧
    strContains "https://ads.example" "https://" = true ∧
    cleanData [⟨some "WWatched atched X", some "2024-01-01T00:00:00Z", some "u"⟩] =
      Except.ok [("Watched X", "2024-01-01T00:00:00Z")] ∧
    strStarts "Watched X" "Watched " = true := ⟨rfl, rfl, rfl, rfl⟩

/-- C4 (amended): every retained entry's title equals some input record's
raw title with the left-to-right occurrences of "Watched " removed;
nothing guarantees the result avoids "https://" or the prefix
"Watched ". -/
theorem c4_title_amended :
    ∀ (recs : List Record) (out : List (String × String)),
      cleanData recs = Except.ok out →
      ∀ p ∈ out, ∃ r ∈ recs, ∃ t, r.title = some t ∧ p.1 = pyReplace t "Watched " ""
  | [], out, h, p, hp => by
    cases h
    simp at hp
  | r :: rs, out, h, p, hp => by
    obtain ⟨ti, tm, tu⟩ := r
    cases ti with
    | none =>
      simp only [cleanData] at h
      obtain ⟨r', hr', hx⟩ := c4_title_amended rs out h p hp
      exact ⟨r', List.mem_cons_of_mem _ hr', hx⟩
    | some t =>
      cases tu with
      | none =>
        simp only [cleanData] at h
        obtain ⟨r', hr', hx⟩ := c4_title_amended rs out h p hp
        exact ⟨r', List.mem_cons_of_mem _ hr', hx⟩
      | some u =>
        cases tm with
        | none => simp [cleanData] at h
        | some tm2 =>
          simp only [cleanData] at h
          cases hrs : cleanData rs with
          | error e => rw [hrs] at h; cases h
          | ok rest =>
            rw [hrs] at h
            cases h
            rcases List.mem_cons.mp hp with rfl | hmem
            · exact ⟨⟨some t, some tm2, some u⟩, List.mem_cons_self _ _, t, rfl, rfl⟩
            · obtain ⟨r', hr', hx⟩ := c4_title_amended rs rest hrs p hmem
              exact ⟨r', List.mem_cons_of_mem _ hr', hx⟩

/-- Witness for C4 (amended) at a concrete record list. -/
theorem c4_title_amended_witness :
    ∃ r ∈ [Record.mk (some "Watched Algebra") (some "T") (some "u")],
      ∃ t, r.title = some t ∧ ("Algebra", "T").1 = pyReplace t "Watched " "" :=
  c4_title_amended [⟨some "Watched Algebra", some "T", some "u"⟩]
    [("Algebra", "T")] rfl ("Algebra", "T") (by simp)

/-! ## Claim C9 — rejection condition -/

/-- C9 (counterexample): a record whose title contains "https://" is
retained (the claim requires rejection), and a record with a non-empty
title and time but no `titleUrl` key is rejected (the claim requires
retention). -/
theorem c9_counterexample :
    cleanData [⟨some "https://x", some "T", some "u"⟩] =
      Except.ok [("https://x", "T")] ∧
    strContains "https://x" "https://" = true ∧
    cleanData [⟨some "Good Video", some "T", none⟩] = Except.ok [] :=
  ⟨rfl, rfl, rfl⟩

/-- C9 (amended): a single record is rejected iff its `title` or its
`titleUrl` field is absent — title emptiness, time emptiness and URL
content play no role — and a record passing that filter whose `time`
field is absent aborts the whole load with a `KeyError`. -/
theorem c9_reject_iff_amended (r : Record) :
    (cleanData [r] = Except.ok [] ↔ (r.title = none ∨ r.titleUrl = none)) ∧
    (r.title ≠ none → r.titleUrl ≠ none → r.time = none →
      cleanData [r] = Except.error LoadError.keyError) := by
  obtain ⟨ti, tm, tu⟩ := r
  cases ti <;> cases tm <;> cases tu <;> simp [cleanData]

/-- Witness for C9 (amended): a record with title and titleUrl but no
time aborts the load. -/
theorem c9_reject_iff_amended_witness :
    cleanData [⟨some "a", none, some "u"⟩] = Except.error LoadError.keyError :=
  (c9_reject_iff_amended ⟨some "a", none, some "u"⟩).2 (by simp) (by simp) rfl

/-! ## Claim C5 — timestamp parse failure aborts the load -/

/-- C5: if the cleaning loop retains some record whose time string the
timestamp parser rejects, the whole load fails with the timestamp
error and returns no entries at all. -/
theorem c5_timestamp_abort (parse : String → Option Int) (recs : List Record)
    (cleaned : List (String × String))
    (hc : cleanData recs = Except.ok cleaned)
    (hbad : ∃ p ∈ cleaned, parse p.2 = none) :
    load parse recs = Except.error LoadError.malformedTimestamp := by
  unfold load
  rw [hc]
  dsimp only
  obtain ⟨p, hp, hnone⟩ := hbad
  rw [parseAll_eq_none parse (cleaned.map Prod.snd)
    ⟨p.2, List.mem_map_of_mem Prod.snd hp, hnone⟩]

/-- Witness for C5 at a concrete parser and record list. -/
theorem c5_timestamp_abort_witness :
    load (fun s => if s = "good" then some 0 else none)
      [⟨some "a", some "bad", some "u"⟩] =
    Except.error LoadError.malformedTimestamp :=
  c5_timestamp_abort (fun s => if s = "good" then some 0 else none)
    [⟨some "a", some "bad", some "u"⟩] [("a", "bad")] rfl
    ⟨("a", "bad"), by simp, rfl⟩

/-! ## Claims C6 and C7 — window counts -/

/-- The fold computing the column maximum dominates its initial value. -/
theorem le_foldl_max : ∀ (l : List Int) (a : Int), a ≤ l.foldl max a
  | [], a => le_refl a
  | b :: l, a => le_trans (le_max_left a b) (le_foldl_max l (max a b))

/-- The fold computing the column maximum dominates every element. -/
theorem mem_le_foldl_max : ∀ (l : List Int) (a x : Int), x ∈ l → x ≤ l.foldl max a
  | [], _, x, hx => absurd hx (by simp)
  | b :: l, a, x, hx => by
    rcases List.mem_cons.mp hx with rfl | hmem
    · exact le_trans (le_max_right a x) (le_foldl_max l (max a x))
    · exact mem_le_foldl_max l (max a b) x hmem

/-- The fold computing the column maximum returns its initial value or an
element of the column. -/
theorem foldl_max_mem : ∀ (l : List Int) (a : Int), l.foldl max a = a ∨ l.foldl max a ∈ l
  | [], a => Or.inl rfl
  | b :: l, a => by
    rcases foldl_max_mem l (max a b) with h | h
    · rcases max_choice a b with hm | hm
      · exact Or.inl (by rw [List.foldl_cons, h, hm])
      · exact Or.inr (by rw [List.foldl_cons, h, hm]; exact List.mem_cons_self b l)
    · exact Or.inr (List.mem_cons_of_mem b h)

/-- C6: on a non-empty column, the windowed count taken at the default
reference (the column maximum) equals the number of entries whose
timestamp is at least the maximum minus the window; the reference is a
genuine maximum (an element of the column dominating all others). The
count is a pure function of the list: the input is never modified. -/
theorem c6_count_within_default_ref (times : List Int) (w : Int) (h : times ≠ []) :
    count_within times (maxTime times) w =
      times.countP (fun t => decide (maxTime times - w ≤ t)) ∧
    maxTime times ∈ times ∧
    ∀ t ∈ times, t ≤ maxTime times := by
  match times, h with
  | t0 :: ts, _ =>
    refine ⟨(List.countP_eq_length_filter _ _).symm, ?_, ?_⟩
    · show maxTime (t0 :: ts) ∈ t0 :: ts
      rcases foldl_max_mem ts t0 with hm | hm
      · rw [show maxTime (t0 :: ts) = ts.foldl max t0 from rfl, hm]
        exact List.mem_cons_self t0 ts
      · exact List.mem_cons_of_mem t0 hm
    · intro t ht
      rcases List.mem_cons.mp ht with rfl | hmem
      · exact le_foldl_max ts t
      · exact mem_le_foldl_max ts t0 t hmem

/-- Witness for C6 at a concrete column. -/
theorem c6_count_within_default_ref_witness :
    (count_within [1, 5, 3] (maxTime [1, 5, 3]) 2 =
      List.countP (fun t => decide (maxTime [1, 5, 3] - 2 ≤ t)) [1, 5, 3] ∧
    maxTime [1, 5, 3] ∈ [1, 5, 3] ∧
    ∀ t ∈ [1, 5, 3], t ≤ maxTime [1, 5, 3]) ∧
    count_within [1, 5, 3] (maxTime [1, 5, 3]) 2 = 2 :=
  ⟨c6_count_within_default_ref [1, 5, 3] 2 (by simp), by decide⟩

/-- C7: with a common reference time, the 365-day window counts at least
as many entries as the 30-day window. -/
theorem c7_window_monotone (times : List Int) (ref : Int) :
    count_within times ref 30 ≤ count_within times ref 365 := by
  refine filter_length_mono _ _ (fun t h30 => ?_) times
  have h1 : ref - 30 ≤ t := of_decide_eq_true h30
  exact decide_eq_true_eq.mpr (le_trans (by linarith) h1)

/-! ## Claim C1 — classify output length and order -/

/-- If every remaining batch's categories decode to a list at least as
long as the batch, the audit loop succeeds and produces exactly the
batches' titles, in order, as the first components of its results. -/
theorem auditGo_ok (resp : Nat → Option String) :
    ∀ (bl : List (List String)) (i : Nat),
      (∀ j b, bl[j]? = some b →
        ∃ l, classify_batch b (resp (i + j)) = PyVal.list l ∧ b.length ≤ l.length) →
      ∃ res, auditGo resp i bl = Except.ok res ∧ res.map Prod.fst = bl.flatten
  | [], _, _ => ⟨[], rfl, rfl⟩
  | b :: bs, i, h => by
    have h0 := h 0 b (by simp)
    rw [Nat.add_zero] at h0
    obtain ⟨l, hcb, hlen⟩ := h0
    obtain ⟨res, hres, hmap⟩ := auditGo_ok resp bs (i + 1) (fun j c hj => by
      have hx := h (j + 1) c (by simpa using hj)
      rwa [show i + (j + 1) = i + 1 + j by omega] at hx)
    refine ⟨b.zip l ++ res, ?_, ?_⟩
    · simp only [auditGo, hcb, zipPairs, hres]
    · rw [List.map_append, hmap, List.map_fst_zip b l hlen, List.flatten_cons]

/-- C1 (counterexample): a decoded label list shorter than its batch
shortens the output — the positional `zip` truncates — so the output
length can differ from the input length. -/
theorem c1_counterexample :
    classifyRun ["A", "B"] 10 (fun _ => some "[\"Aligned\"]") =
      Except.ok [("A", PyVal.str "Aligned")] ∧
    ¬ ∃ res, classifyRun ["A", "B"] 10 (fun _ => some "[\"Aligned\"]") = Except.ok res ∧
        res.length = ["A", "B"].length := by
  refine ⟨rfl, ?_⟩
  rintro ⟨res, hres, hlen⟩
  rw [show classifyRun ["A", "B"] 10 (fun _ => some "[\"Aligned\"]") =
      Except.ok [("A", PyVal.str "Aligned")] from rfl] at hres
  cases hres
  simp at hlen

/-- C1 (amended): whenever each batch's external outcome yields a label
list at least as long as the batch (which includes every failed call
and every undecodable response, whose fallback list has exactly the
batch's length), the run succeeds with exactly one result per title,
titles in input order; a decoded list shorter than its batch instead
truncates the output. -/
theorem c1_classify_length_amended (titles : List String) (bs : Nat)
    (resp : Nat → Option String)
    (h : ∀ j b, (chunks bs titles)[j]? = some b →
      ∃ l, classify_batch b (resp j) = PyVal.list l ∧ b.length ≤ l.length) :
    ∃ res, classifyRun titles bs resp = Except.ok res ∧
      res.map Prod.fst = titles ∧ res.length = titles.length := by
  obtain ⟨res, h1, h2⟩ := auditGo_ok resp (chunks bs titles) 0 (fun j b hj => by
    rw [Nat.zero_add]
    exact h j b hj)
  refine ⟨res, h1, ?_, ?_⟩
  · rw [h2, chunks_flatten]
  · have hlen := congrArg List.length h2
    rwa [List.length_map, chunks_flatten] at hlen

/-- Witness for C1 (amended) at a two-title run with a well-formed
response. -/
theorem c1_classify_length_amended_witness :
    ∃ res, classifyRun ["A", "B"] 10 (fun _ => some "[\"Aligned\", \"Neutral\"]") =
        Except.ok res ∧
      res.map Prod.fst = ["A", "B"] ∧ res.length = ["A", "B"].length :=
  c1_classify_length_amended ["A", "B"] 10 (fun _ => some "[\"Aligned\", \"Neutral\"]")
    (fun j b hj => by
      match j with
      | 0 =>
        rw [show (chunks 10 ["A", "B"])[0]? = some ["A", "B"] from rfl] at hj
        cases hj
        exact ⟨[PyVal.str "Aligned", PyVal.str "Neutral"], rfl, by decide⟩
      | j + 1 => simp [chunks, chunksF] at hj)

/-! ## Claim C8 — fail-soft behavior -/

/-- C8 (counterexample): a response with no brackets at all that is still
valid JSON — here the JSON string `"AB"` — does not produce `Error`
rows: the loop zips the batch with the characters of the decoded
string, so the rows get categories "A" and "B". -/
theorem c8_counterexample :
    classifyRun ["t1", "t2"] 10 (fun _ => some "\"AB\"") =
      Except.ok [("t1", PyVal.str "A"), ("t2", PyVal.str "B")] ∧
    ¬ classifyRun ["t1", "t2"] 10 (fun _ => some "\"AB\"") =
      Except.ok [("t1", PyVal.str "Error"), ("t2", PyVal.str "Error")] := by
  refine ⟨rfl, fun h => ?_⟩
  rw [show classifyRun ["t1", "t2"] 10 (fun _ => some "\"AB\"") =
      Except.ok [("t1", PyVal.str "A"), ("t2", PyVal.str "B")] from rfl] at h
  simp only [Except.ok.injEq, List.cons.injEq, Prod.mk.injEq, PyVal.str.injEq] at h
  exact absurd h.1.2 (by decide)

/-- C8 (amended): when the external call fails, or its text (after fence
stripping) fails to decode as JSON, every title of that batch receives
the sentinel `Error` and the loop proceeds to the next batch; only a
response decoding to non-`Error` JSON can produce anything else. -/
theorem c8_fail_soft_amended (batch : List String) (text : String)
    (hdec : jsonLoads (stripFences text) = none) :
    zipPairs batch (classify_batch batch none) =
      Except.ok (batch.map (fun t => (t, PyVal.str "Error"))) ∧
    zipPairs batch (classify_batch batch (some text)) =
      Except.ok (batch.map (fun t => (t, PyVal.str "Error"))) ∧
    ∀ (more : List (List String)) (resp : Nat → Option String) (i : Nat),
      resp i = some text →
      auditGo resp i (batch :: more) =
        match auditGo resp (i + 1) more with
        | Except.ok rest => Except.ok (batch.map (fun t => (t, PyVal.str "Error")) ++ rest)
        | Except.error e => Except.error e := by
  have hz : zipPairs batch (errorCats batch) =
      Except.ok (batch.map (fun t => (t, PyVal.str "Error"))) := by
    simp only [errorCats, zipPairs]
    rw [zip_map_self]
  refine ⟨?_, ?_, ?_⟩
  · simpa only [classify_batch] using hz
  · simp only [classify_batch, hdec]
    exact hz
  · intro more resp i hi
    simp only [auditGo, hi, classify_batch, hdec, hz]
    cases auditGo resp (i + 1) more <;> rfl

/-- Witness for C8 (amended): both a failed call and an undecodable
response give all-`Error` rows for the batch. -/
theorem c8_fail_soft_amended_witness :
    zipPairs ["t1", "t2"] (classify_batch ["t1", "t2"] none) =
      Except.ok [("t1", PyVal.str "Error"), ("t2", PyVal.str "Error")] ∧
    zipPairs ["t1", "t2"] (classify_batch ["t1", "t2"] (some "no list here")) =
      Except.ok [("t1", PyVal.str "Error"), ("t2", PyVal.str "Error")] := by
  have h := c8_fail_soft_amended ["t1", "t2"] "no list here" rfl
  exact ⟨h.1, h.2.1⟩
